import Mathlib

/-!
Verification of the palette calculator core (calculator.go, current variant):
the RGB to HSL and HSL to RGB converters, the hue rotation helper, the
scheme generators and the hex renderer.  Go float64 arithmetic is embedded
as exact rational arithmetic; gonum floats.Round (round half away from zero
at a decimal precision) becomes roundTo, Go int64 conversion (truncation
toward zero) becomes trunc64, math.Mod becomes goMod, and
strconv.FormatInt(_, 16) becomes formatIntHex.
-/

namespace PaletteCalculator

attribute [local semireducible] Rat.mul Rat.add Rat.sub Rat.inv

/-- gonum floats.Min on a two element tail: the smaller of two rationals,
written with an explicit comparison so that concrete values evaluate. -/
def goMin (a b : ℚ) : ℚ := if a ≤ b then a else b

/-- gonum floats.Max on a two element tail: the larger of two rationals,
written with an explicit comparison so that concrete values evaluate. -/
def goMax (a b : ℚ) : ℚ := if a ≤ b then b else a

/-- Round half away from zero to an integer, the integer core of gonum
floats.Round. -/
def roundAway (x : ℚ) : ℤ :=
  if x < 0 then -⌊-x + 1/2⌋ else ⌊x + 1/2⌋

/-- gonum floats.Round: round half away from zero keeping prec decimal
digits. -/
def roundTo (prec : ℕ) (x : ℚ) : ℚ :=
  (roundAway (x * 10 ^ prec) : ℚ) / 10 ^ prec

/-- Go conversion float64 to int64: truncation toward zero. -/
def trunc64 (x : ℚ) : ℤ :=
  if x < 0 then -⌊-x⌋ else ⌊x⌋

/-- Go math.Mod: remainder with the sign of the dividend. -/
def goMod (x y : ℚ) : ℚ :=
  x - y * (trunc64 (x / y) : ℚ)

/-- Lowercase hexadecimal digit character (0-9, a-f). -/
def hexDigitChar (n : ℕ) : Char :=
  if n < 10 then Char.ofNat (48 + n) else Char.ofNat (87 + n)

/-- Fueled helper computing the minimal hexadecimal digit list of a natural
number, most significant digit first. -/
def natHexDigitsAux : ℕ → ℕ → List Char
  | 0, _ => []
  | fuel + 1, n =>
    if n < 16 then [hexDigitChar n]
    else natHexDigitsAux fuel (n / 16) ++ [hexDigitChar (n % 16)]

/-- Minimal hexadecimal digit list of a natural number (no leading zeros,
a single digit for zero itself). -/
def natHexDigits (n : ℕ) : List Char :=
  natHexDigitsAux (n + 1) n

/-- Go strconv.FormatInt(i, 16): minimal lowercase hexadecimal rendering of
an integer. -/
def formatIntHex (i : ℤ) : String :=
  if i < 0 then "-" ++ String.mk (natHexDigits i.natAbs)
  else String.mk (natHexDigits i.toNat)

/-- Color struct of calculator.go: three float channels and the hex
string. -/
structure Color where
  red : ℚ
  green : ℚ
  blue : ℚ
  hex : String
deriving DecidableEq

/-- HSL struct of calculator.go: hue, saturation, luminosity. -/
structure HSL where
  hue : ℚ
  saturation : ℚ
  luminosity : ℚ
deriving DecidableEq

/-- generateHex of calculator.go: the hex field is the concatenation of
strconv.FormatInt(int64(channel), 16) over red, green, blue. -/
def generateHex (r g b : ℚ) : String :=
  formatIntHex (trunc64 r) ++ formatIntHex (trunc64 g) ++ formatIntHex (trunc64 b)

/-- CalculateHSL of calculator.go: the chromatic helper of the RGB to HSL
converter.  Channels are rescaled to [0,1] and rounded to 3 decimals, the
saturation branch reads the already rounded luminosity, and the hue is
assigned by three sequential if statements testing each rounded channel
against the rounded maximum. -/
def CalculateHSL (r g b luminosity delta : ℚ) : HSL :=
  let mn := roundTo 3 (goMin r (goMin g b) / 255)
  let mx := roundTo 3 (goMax r (goMax g b) / 255)
  let red := roundTo 3 (r / 255)
  let green := roundTo 3 (g / 255)
  let blue := roundTo 3 (b / 255)
  let saturation :=
    if luminosity < 1/2 then roundTo 3 (delta / (mx + mn))
    else roundTo 3 (delta / (2 - mx - mn))
  let hue0 : ℚ := 0
  let hue1 := if red = mx then (green - blue) / (mx - mn) else hue0
  let hue2 := if green = mx then 2 + (blue - red) / (mx - mn) else hue1
  let hue3 := if blue = mx then 4 + (red - green) / (mx - mn) else hue2
  { hue := roundTo 0 (hue3 * 60),
    saturation := roundTo 2 saturation,
    luminosity := roundTo 2 luminosity }

/-- ConvertRGBToHSL of calculator.go. -/
def ConvertRGBToHSL (rgb : Color) : HSL :=
  let mn := goMin rgb.red (goMin rgb.green rgb.blue) / 255
  let mx := goMax rgb.red (goMax rgb.green rgb.blue) / 255
  let delta := mx - mn
  let luminosity := roundTo 2 ((mx + mn) / 2)
  if delta > 0 then CalculateHSL rgb.red rgb.green rgb.blue luminosity delta
  else { hue := 0, saturation := 0, luminosity := luminosity }

/-- calculateRGBByColor of calculator.go: one channel of the chromatic HSL
to RGB formula, with tempVar[0] = temp1 and tempVar[1] = temp2. -/
def calculateRGBByColor (tempColor temp1 temp2 : ℚ) : ℚ :=
  if tempColor * 6 < 1 then roundTo 3 (temp2 + (temp1 - temp2) * 6 * tempColor)
  else if tempColor * 2 < 1 then roundTo 3 temp1
  else if tempColor * 3 < 2 then roundTo 3 (temp2 + (temp1 - temp2) * (2/3 - tempColor) * 6)
  else roundTo 3 temp2

/-- The wrapping loop at the top of calculateRGB: each temp fraction is
raised by 1 when negative, else lowered by 1 when above 1 (the loop
variable is the original value, so at most one correction applies). -/
def wrapFraction (c : ℚ) : ℚ :=
  if c < 0 then c + 1 else if c > 1 then c - 1 else c

/-- calculateRGB of calculator.go: wrap the three temp fractions, compute
each channel, scale by 255, round to 0 decimals, and derive the hex. -/
def calculateRGB (tempRed tempGreen tempBlue temp1 temp2 : ℚ) : Color :=
  let r := wrapFraction tempRed
  let g := wrapFraction tempGreen
  let b := wrapFraction tempBlue
  let red := roundTo 0 (calculateRGBByColor r temp1 temp2 * 255)
  let green := roundTo 0 (calculateRGBByColor g temp1 temp2 * 255)
  let blue := roundTo 0 (calculateRGBByColor b temp1 temp2 * 255)
  { red := red, green := green, blue := blue, hex := generateHex red green blue }

/-- ConvertHSLToRGB of calculator.go.  The chromatic path runs only when
both hue and saturation are strictly positive; otherwise each channel is
luminosity * 255 with no rounding. -/
def ConvertHSLToRGB (hsl : HSL) : Color :=
  if hsl.hue > 0 ∧ hsl.saturation > 0 then
    let temp1 :=
      if hsl.luminosity < 1/2 then hsl.luminosity * (1 + hsl.saturation)
      else (hsl.luminosity + hsl.saturation) - hsl.luminosity * hsl.saturation
    let temp2 := 2 * hsl.luminosity - temp1
    let tempRed := roundTo 2 (hsl.hue / 360 + 1/3)
    let tempGreen := roundTo 3 (hsl.hue / 360)
    let tempBlue := roundTo 2 (hsl.hue / 360 - 1/3)
    calculateRGB tempRed tempGreen tempBlue temp1 temp2
  else
    { red := hsl.luminosity * 255,
      green := hsl.luminosity * 255,
      blue := hsl.luminosity * 255,
      hex := generateHex (hsl.luminosity * 255) (hsl.luminosity * 255) (hsl.luminosity * 255) }

/-- transformHue of calculator.go: rotate the hue by a fixed offset modulo
360, keeping saturation and luminosity. -/
def transformHue (hsl : HSL) (off : ℚ) : HSL :=
  { hue := goMod (hsl.hue + off) 360,
    saturation := hsl.saturation,
    luminosity := hsl.luminosity }

/-- generateInitialRGBAndHSLForColor of calculator.go: the singleton list
holding a copy of the dominant color, together with its HSL conversion. -/
def generateInitialRGBAndHSLForColor (c : Color) : List Color × HSL :=
  let dcToRGB : Color := { red := c.red, green := c.green, blue := c.blue, hex := c.hex }
  ([dcToRGB], ConvertRGBToHSL dcToRGB)

/-- CalculateComplimentaryColorScheme of calculator.go: dominant color plus
the 180 degree rotation. -/
def CalculateComplimentaryColorScheme (dc : Color) : List Color :=
  let p := generateInitialRGBAndHSLForColor dc
  p.1 ++ [ConvertHSLToRGB (transformHue p.2 180)]

/-- CalculateSplitComplimentaryColorScheme of calculator.go: dominant color
plus the 150 and 210 degree rotations. -/
def CalculateSplitComplimentaryColorScheme (dc : Color) : List Color :=
  let p := generateInitialRGBAndHSLForColor dc
  p.1 ++ [ConvertHSLToRGB (transformHue p.2 150), ConvertHSLToRGB (transformHue p.2 210)]

/-- CalculateTriadicColorScheme of calculator.go: dominant color plus the
120 and 240 degree rotations. -/
def CalculateTriadicColorScheme (dc : Color) : List Color :=
  let p := generateInitialRGBAndHSLForColor dc
  p.1 ++ [ConvertHSLToRGB (transformHue p.2 120), ConvertHSLToRGB (transformHue p.2 240)]

/-- CalculateTetradicColorScheme of calculator.go: dominant color plus the
60, 180 and 240 degree rotations. -/
def CalculateTetradicColorScheme (dc : Color) : List Color :=
  let p := generateInitialRGBAndHSLForColor dc
  p.1 ++ [ConvertHSLToRGB (transformHue p.2 60), ConvertHSLToRGB (transformHue p.2 180),
    ConvertHSLToRGB (transformHue p.2 240)]

/-! Basic facts about half-away-from-zero rounding. -/

theorem roundAway_mono {x y : ℚ} (h : x ≤ y) : roundAway x ≤ roundAway y := by
  unfold roundAway
  by_cases hx : x < 0 <;> by_cases hy : y < 0 <;> simp only [hx, hy, if_pos, if_neg, if_true, if_false]
  · exact neg_le_neg (Int.floor_le_floor (by linarith))
  · have h1 : (0:ℤ) ≤ ⌊-x + 1/2⌋ := by
      have hnn : (0:ℚ) ≤ -x + 1/2 := by linarith
      exact Int.le_floor.mpr (by exact_mod_cast hnn)
    have h2 : (0:ℤ) ≤ ⌊y + 1/2⌋ := by
      have hnn : (0:ℚ) ≤ y + 1/2 := by linarith
      exact Int.le_floor.mpr (by exact_mod_cast hnn)
    omega
  · exact absurd (lt_of_le_of_lt h hy) hx
  · exact Int.floor_le_floor (by linarith)

theorem roundAway_le_cast (x : ℚ) : (roundAway x : ℚ) ≤ x + 1/2 := by
  unfold roundAway
  by_cases hx : x < 0 <;> simp only [hx, if_pos, if_neg, if_true, if_false]
  · push_cast
    have h := Int.sub_one_lt_floor (-x + 1/2)
    linarith
  · have h := Int.floor_le (x + 1/2)
    linarith

theorem cast_le_roundAway (x : ℚ) : x - 1/2 ≤ (roundAway x : ℚ) := by
  unfold roundAway
  by_cases hx : x < 0 <;> simp only [hx, if_pos, if_neg, if_true, if_false]
  · push_cast
    have h := Int.floor_le (-x + 1/2)
    linarith
  · have h := Int.sub_one_lt_floor (x + 1/2)
    linarith

theorem roundAway_intCast (n : ℤ) : roundAway (n : ℚ) = n := by
  unfold roundAway
  have hfl : ⌊(n:ℚ) + 1/2⌋ = n := by
    rw [show (n:ℚ) + 1/2 = 1/2 + (n:ℚ) by ring, Int.floor_add_int]
    norm_num
  have hfl2 : ⌊-(n:ℚ) + 1/2⌋ = -n := by
    rw [show -(n:ℚ) + 1/2 = 1/2 + ((-n : ℤ) : ℚ) by push_cast; ring, Int.floor_add_int]
    norm_num
  by_cases hn : (n:ℚ) < 0 <;> simp only [hn, if_pos, if_neg, if_true, if_false] <;> omega

theorem roundTo_mono (p : ℕ) {x y : ℚ} (h : x ≤ y) : roundTo p x ≤ roundTo p y := by
  unfold roundTo
  have hp : (0:ℚ) < 10 ^ p := by positivity
  have hm : x * 10 ^ p ≤ y * 10 ^ p := by
    exact mul_le_mul_of_nonneg_right h (le_of_lt hp)
  exact div_le_div_of_nonneg_right (by exact_mod_cast roundAway_mono hm) hp.le

theorem roundTo_le (p : ℕ) (x : ℚ) : roundTo p x ≤ x + 1 / (2 * 10 ^ p) := by
  unfold roundTo
  have hp : (0:ℚ) < 10 ^ p := by positivity
  rw [div_le_iff hp]
  have h := roundAway_le_cast (x * 10 ^ p)
  have he : (x + 1 / (2 * 10 ^ p)) * 10 ^ p = x * 10 ^ p + 1/2 := by
    field_simp
    ring
  rw [he]
  exact h

theorem le_roundTo (p : ℕ) (x : ℚ) : x - 1 / (2 * 10 ^ p) ≤ roundTo p x := by
  unfold roundTo
  have hp : (0:ℚ) < 10 ^ p := by positivity
  rw [le_div_iff hp]
  have h := cast_le_roundAway (x * 10 ^ p)
  have he : (x - 1 / (2 * 10 ^ p)) * 10 ^ p = x * 10 ^ p - 1/2 := by
    field_simp
    ring
  rw [he]
  exact h

theorem roundTo_roundTo (p : ℕ) (x : ℚ) : roundTo p (roundTo p x) = roundTo p x := by
  unfold roundTo
  have hp : (10:ℚ) ^ p ≠ 0 := by positivity
  rw [div_mul_cancel₀ _ hp, roundAway_intCast]

/-! Facts about goMin and goMax. -/

theorem goMin_le_left (a b : ℚ) : goMin a b ≤ a := by
  unfold goMin
  split_ifs with h
  · exact le_refl a
  · linarith

theorem goMin_le_right (a b : ℚ) : goMin a b ≤ b := by
  unfold goMin
  split_ifs with h
  · exact h
  · exact le_refl b

theorem left_le_goMax (a b : ℚ) : a ≤ goMax a b := by
  unfold goMax
  split_ifs with h
  · exact h
  · exact le_refl a

theorem right_le_goMax (a b : ℚ) : b ≤ goMax a b := by
  unfold goMax
  split_ifs with h
  · exact le_refl b
  · linarith

theorem goMax_choice (a b : ℚ) : goMax a b = a ∨ goMax a b = b := by
  unfold goMax
  split_ifs
  · exact Or.inr rfl
  · exact Or.inl rfl

theorem goMax_div (a b c : ℚ) (hc : 0 < c) : goMax a b / c = goMax (a / c) (b / c) := by
  unfold goMax
  by_cases h : a ≤ b
  · rw [if_pos h, if_pos (div_le_div_of_nonneg_right h hc.le)]
  · have hb : b ≤ a := le_of_not_le h
    by_cases h2 : a / c ≤ b / c
    · have : a ≤ b := by
        have := mul_le_mul_of_nonneg_right h2 (le_of_lt hc)
        rwa [div_mul_cancel₀ _ (ne_of_gt hc), div_mul_cancel₀ _ (ne_of_gt hc)] at this
      rw [if_neg h, if_pos h2]
      rw [le_antisymm this hb]
    · rw [if_neg h, if_neg h2]

theorem goMin_div (a b c : ℚ) (hc : 0 < c) : goMin a b / c = goMin (a / c) (b / c) := by
  unfold goMin
  by_cases h : a ≤ b
  · rw [if_pos h, if_pos (div_le_div_of_nonneg_right h hc.le)]
  · have hb : b ≤ a := le_of_not_le h
    by_cases h2 : a / c ≤ b / c
    · have : a ≤ b := by
        have := mul_le_mul_of_nonneg_right h2 (le_of_lt hc)
        rwa [div_mul_cancel₀ _ (ne_of_gt hc), div_mul_cancel₀ _ (ne_of_gt hc)] at this
      rw [if_pos h2, if_neg h]
      rw [le_antisymm this hb]
    · rw [if_neg h, if_neg h2]

theorem roundTo_goMax (p : ℕ) (a b : ℚ) :
    roundTo p (goMax a b) = goMax (roundTo p a) (roundTo p b) := by
  unfold goMax
  by_cases h : a ≤ b
  · rw [if_pos h, if_pos (roundTo_mono p h)]
  · have hb : b ≤ a := le_of_not_le h
    by_cases h2 : roundTo p a ≤ roundTo p b
    · rw [if_neg h, if_pos h2]
      exact le_antisymm h2 (roundTo_mono p hb)
    · rw [if_neg h, if_neg h2]

theorem roundTo_goMin (p : ℕ) (a b : ℚ) :
    roundTo p (goMin a b) = goMin (roundTo p a) (roundTo p b) := by
  unfold goMin
  by_cases h : a ≤ b
  · rw [if_pos h, if_pos (roundTo_mono p h)]
  · have hb : b ≤ a := le_of_not_le h
    by_cases h2 : roundTo p a ≤ roundTo p b
    · rw [if_neg h, if_pos h2]
      exact le_antisymm (roundTo_mono p hb) h2
    · rw [if_neg h, if_neg h2]

/-! Facts about the hexadecimal renderer. -/

theorem natHexDigits_small {n : ℕ} (h : n < 16) : natHexDigits n = [hexDigitChar n] := by
  unfold natHexDigits
  simp [natHexDigitsAux, h]

theorem natHexDigits_two {n : ℕ} (h1 : 16 ≤ n) (h2 : n ≤ 255) :
    natHexDigits n = [hexDigitChar (n / 16), hexDigitChar (n % 16)] := by
  obtain ⟨m, rfl⟩ : ∃ m, n = m + 1 := ⟨n - 1, by omega⟩
  have hc1 : ¬(m + 1 < 16) := by omega
  have hc2 : (m + 1) / 16 < 16 := by omega
  unfold natHexDigits
  simp only [natHexDigitsAux, hc1, hc2, if_neg, if_pos, if_false, if_true, List.singleton_append]

theorem trunc64_natCast (n : ℕ) : trunc64 (n : ℚ) = n := by
  unfold trunc64
  rw [if_neg (not_lt.mpr (by positivity)), Int.floor_natCast]

theorem formatIntHex_natCast (n : ℕ) : formatIntHex (n : ℤ) = String.mk (natHexDigits n) := by
  unfold formatIntHex
  rw [if_neg (not_lt.mpr (by positivity)), Int.toNat_natCast]

theorem stringMk_append (a b : List Char) : String.mk a ++ String.mk b = String.mk (a ++ b) := rfl

/-! Claim-modelled comparison definitions. -/

/-- Modelled from the claim of C4: the hex string as the concatenation of
the zero-padded two-digit lowercase hex of each channel, in red, green,
blue order. -/
def specPaddedHex (r g b : ℕ) : String :=
  String.mk [hexDigitChar (r / 16), hexDigitChar (r % 16),
    hexDigitChar (g / 16), hexDigitChar (g % 16),
    hexDigitChar (b / 16), hexDigitChar (b % 16)]

/-- The raw hue value that the three sequential if statements of
CalculateHSL actually select: the last channel in red, green, blue order
that equals the rounded maximum wins. -/
def lastMaxHueRaw (r g b : ℚ) : ℚ :=
  let mn := roundTo 3 (goMin r (goMin g b) / 255)
  let mx := roundTo 3 (goMax r (goMax g b) / 255)
  let red := roundTo 3 (r / 255)
  let green := roundTo 3 (g / 255)
  let blue := roundTo 3 (b / 255)
  if blue = mx then 4 + (red - green) / (mx - mn)
  else if green = mx then 2 + (blue - red) / (mx - mn)
  else (green - blue) / (mx - mn)

/-- Modelled from the claim of C7: the raw hue selected by the first
channel in red, green, blue order that equals the rounded maximum. -/
def firstMaxHueRaw (r g b : ℚ) : ℚ :=
  let mn := roundTo 3 (goMin r (goMin g b) / 255)
  let mx := roundTo 3 (goMax r (goMax g b) / 255)
  let red := roundTo 3 (r / 255)
  let green := roundTo 3 (g / 255)
  let blue := roundTo 3 (b / 255)
  if red = mx then (green - blue) / (mx - mn)
  else if green = mx then 2 + (blue - red) / (mx - mn)
  else 4 + (red - green) / (mx - mn)

/-- Modelled from the claim of C9: the RGB to HSL conversion computed from
unrounded intermediates, with each output field rounded exactly once (hue
to whole degrees, saturation and luminosity to 2 decimals). -/
def hslRoundedOnce (c : Color) : HSL :=
  let mn := goMin c.red (goMin c.green c.blue) / 255
  let mx := goMax c.red (goMax c.green c.blue) / 255
  let delta := mx - mn
  let lum := (mx + mn) / 2
  if delta > 0 then
    let sat := if lum < 1/2 then delta / (mx + mn) else delta / (2 - mx - mn)
    let raw :=
      if c.red / 255 = mx then (c.green / 255 - c.blue / 255) / delta
      else if c.green / 255 = mx then 2 + (c.blue / 255 - c.red / 255) / delta
      else 4 + (c.red / 255 - c.green / 255) / delta
    { hue := roundTo 0 (raw * 60), saturation := roundTo 2 sat, luminosity := roundTo 2 lum }
  else { hue := 0, saturation := 0, luminosity := roundTo 2 lum }

/-! The hue actually returned by CalculateHSL is the one selected by the
last matching sequential if statement. -/

theorem calculateHSL_hue_eq (r g b lum delta : ℚ) :
    (CalculateHSL r g b lum delta).hue = roundTo 0 (lastMaxHueRaw r g b * 60) := by
  unfold CalculateHSL lastMaxHueRaw
  simp only
  set mn := roundTo 3 (goMin r (goMin g b) / 255) with hmn
  set mx := roundTo 3 (goMax r (goMax g b) / 255) with hmxdef
  set red := roundTo 3 (r / 255) with hredd
  set green := roundTo 3 (g / 255) with hgreend
  set blue := roundTo 3 (b / 255) with hblued
  have hmx : mx = goMax red (goMax green blue) := by
    rw [hmxdef, hredd, hgreend, hblued, goMax_div _ _ _ (by norm_num : (0:ℚ) < 255),
      goMax_div _ _ _ (by norm_num : (0:ℚ) < 255), roundTo_goMax, roundTo_goMax]
  by_cases hb : blue = mx
  · simp [hb]
  · by_cases hg : green = mx
    · simp [hb, hg]
    · by_cases hr : red = mx
      · simp [hb, hg, hr]
      · exfalso
        rcases goMax_choice red (goMax green blue) with h | h
        · exact hr (by rw [hmx, h])
        · rcases goMax_choice green blue with h2 | h2
          · exact hg (by rw [hmx, h, h2])
          · exact hb (by rw [hmx, h, h2])

theorem calculateHSL_luminosity (r g b lum delta : ℚ) :
    (CalculateHSL r g b lum delta).luminosity = roundTo 2 lum := rfl

theorem calculateHSL_saturation (r g b lum delta : ℚ) :
    (CalculateHSL r g b lum delta).saturation =
      roundTo 2 (if lum < 1/2
        then roundTo 3 (delta / (roundTo 3 (goMax r (goMax g b) / 255) +
          roundTo 3 (goMin r (goMin g b) / 255)))
        else roundTo 3 (delta / (2 - roundTo 3 (goMax r (goMax g b) / 255) -
          roundTo 3 (goMin r (goMin g b) / 255)))) := rfl

theorem convertRGBToHSL_chromatic (c : Color)
    (h : 0 < goMax c.red (goMax c.green c.blue) / 255 - goMin c.red (goMin c.green c.blue) / 255) :
    ConvertRGBToHSL c = CalculateHSL c.red c.green c.blue
      (roundTo 2 ((goMax c.red (goMax c.green c.blue) / 255 +
        goMin c.red (goMin c.green c.blue) / 255) / 2))
      (goMax c.red (goMax c.green c.blue) / 255 - goMin c.red (goMin c.green c.blue) / 255) := by
  unfold ConvertRGBToHSL
  simp only
  rw [if_pos h]

theorem convertRGBToHSL_achromatic (c : Color)
    (h : ¬ 0 < goMax c.red (goMax c.green c.blue) / 255 - goMin c.red (goMin c.green c.blue) / 255) :
    ConvertRGBToHSL c = ⟨0, 0, roundTo 2 ((goMax c.red (goMax c.green c.blue) / 255 +
      goMin c.red (goMin c.green c.blue) / 255) / 2)⟩ := by
  unfold ConvertRGBToHSL
  simp only
  rw [if_neg h]

/-! Bounds on the raw hue value. -/

theorem ratio_bounds {x y mn mx : ℚ} (hx1 : mn ≤ x) (hx2 : x ≤ mx) (hy1 : mn ≤ y)
    (hy2 : y ≤ mx) : -1 ≤ (x - y) / (mx - mn) ∧ (x - y) / (mx - mn) ≤ 1 := by
  rcases eq_or_lt_of_le (le_trans hx1 hx2) with heq | hlt
  · have hz : mx - mn = 0 := by rw [← heq]; ring
    rw [hz, div_zero]
    norm_num
  · have hd : 0 < mx - mn := by linarith
    constructor
    · rw [le_div_iff hd]
      linarith
    · rw [div_le_one hd]
      linarith

theorem lastMaxHueRaw_bounds (r g b : ℚ) :
    -1 ≤ lastMaxHueRaw r g b ∧ lastMaxHueRaw r g b ≤ 5 := by
  unfold lastMaxHueRaw
  simp only
  set mn := roundTo 3 (goMin r (goMin g b) / 255) with hmnd
  set mx := roundTo 3 (goMax r (goMax g b) / 255) with hmxd
  set red := roundTo 3 (r / 255) with hredd
  set green := roundTo 3 (g / 255) with hgreend
  set blue := roundTo 3 (b / 255) with hblued
  have hmneq : mn = goMin red (goMin green blue) := by
    rw [hmnd, hredd, hgreend, hblued, goMin_div _ _ _ (by norm_num : (0:ℚ) < 255),
      goMin_div _ _ _ (by norm_num : (0:ℚ) < 255), roundTo_goMin, roundTo_goMin]
  have hmxeq : mx = goMax red (goMax green blue) := by
    rw [hmxd, hredd, hgreend, hblued, goMax_div _ _ _ (by norm_num : (0:ℚ) < 255),
      goMax_div _ _ _ (by norm_num : (0:ℚ) < 255), roundTo_goMax, roundTo_goMax]
  have hr1 : mn ≤ red := by rw [hmneq]; exact goMin_le_left _ _
  have hg1 : mn ≤ green := by
    rw [hmneq]
    exact le_trans (goMin_le_right _ _) (goMin_le_left _ _)
  have hb1 : mn ≤ blue := by
    rw [hmneq]
    exact le_trans (goMin_le_right _ _) (goMin_le_right _ _)
  have hr2 : red ≤ mx := by rw [hmxeq]; exact left_le_goMax _ _
  have hg2 : green ≤ mx := by
    rw [hmxeq]
    exact le_trans (left_le_goMax _ _) (right_le_goMax _ _)
  have hb2 : blue ≤ mx := by
    rw [hmxeq]
    exact le_trans (right_le_goMax _ _) (right_le_goMax _ _)
  split_ifs
  · obtain ⟨hlo, hhi⟩ := ratio_bounds hr1 hr2 hg1 hg2
    constructor <;> linarith
  · obtain ⟨hlo, hhi⟩ := ratio_bounds hb1 hb2 hr1 hr2
    constructor <;> linarith
  · obtain ⟨hlo, hhi⟩ := ratio_bounds hg1 hg2 hb1 hb2
    constructor <;> linarith

/-! The claims. -/

/-- C1: the round trip law fails on the code: converting the gray color
with all channels 24 to HSL and back yields channels 459/20 = 22.95, which
is 1.05 away from 24, more than the allowed 1 per channel.  The failure
comes from luminosity being rounded to 2 decimals inside ConvertRGBToHSL
before it is reused, a double rounding the specification forbids. -/
theorem roundtrip_error_at_gray24 :
    (ConvertHSLToRGB (ConvertRGBToHSL ⟨24, 24, 24, "181818"⟩)).red = 459 / 20 ∧
    1 < (24 : ℚ) - 459 / 20 := by decide

/-- C2: on the dominant color red 24, green 98, blue 119 with hex 186277,
CalculateTetradicColorScheme returns exactly the four colors of the claim
in order. -/
theorem tetradic_scenario_correct :
    CalculateTetradicColorScheme ⟨24, 98, 119, "186277"⟩ =
      [⟨24, 98, 119, "186277"⟩, ⟨47, 24, 119, "2f1877"⟩, ⟨119, 45, 24, "772d18"⟩,
        ⟨96, 119, 24, "607718"⟩] := by decide

/-- C3: every scheme returns the dominant color first followed by the hue
rotated conversions in the fixed scheme order, with the stated lengths
(complementary 2, tetradic 4 with offsets 60, 180, 240 after the input),
never sorted or deduplicated. -/
theorem scheme_cardinality_and_order (dc : Color) :
    CalculateComplimentaryColorScheme dc =
      [dc, ConvertHSLToRGB (transformHue (ConvertRGBToHSL dc) 180)] ∧
    CalculateSplitComplimentaryColorScheme dc =
      [dc, ConvertHSLToRGB (transformHue (ConvertRGBToHSL dc) 150),
        ConvertHSLToRGB (transformHue (ConvertRGBToHSL dc) 210)] ∧
    CalculateTriadicColorScheme dc =
      [dc, ConvertHSLToRGB (transformHue (ConvertRGBToHSL dc) 120),
        ConvertHSLToRGB (transformHue (ConvertRGBToHSL dc) 240)] ∧
    CalculateTetradicColorScheme dc =
      [dc, ConvertHSLToRGB (transformHue (ConvertRGBToHSL dc) 60),
        ConvertHSLToRGB (transformHue (ConvertRGBToHSL dc) 180),
        ConvertHSLToRGB (transformHue (ConvertRGBToHSL dc) 240)] ∧
    (CalculateComplimentaryColorScheme dc).length = 2 ∧
    (CalculateTetradicColorScheme dc).length = 4 := by
  obtain ⟨r, g, b, hx⟩ := dc
  exact ⟨rfl, rfl, rfl, rfl, rfl, rfl⟩

/-- C4 counterexample: the converter produces the color (5, 15, 5) whose
hex is 5f5, not the zero-padded 050f05 required by the claim: channels
below 16 contribute a single character. -/
theorem hex_no_padding_counterexample :
    ConvertHSLToRGB ⟨120, 1/2, 4/100⟩ = ⟨5, 15, 5, "5f5"⟩ ∧
    (⟨5, 15, 5, "5f5"⟩ : Color).hex ≠ specPaddedHex 5 15 5 := by decide

/-- Modelled from the amended claim of C4: the minimal-length lowercase
hex digit list of one channel value: a single digit below 16, the two
digits of the claimed two-digit form from 16 up. -/
def specMinimalHexDigits (n : ℕ) : List Char :=
  if n < 16 then [hexDigitChar n] else [hexDigitChar (n / 16), hexDigitChar (n % 16)]

/-- C4 amended: for every integer channel triple in [0, 255] the hex
string is the concatenation, in red, green, blue order, of the
minimal-length lowercase hex of each channel: a channel of 16 or more
contributes the two claimed digits, a channel below 16 contributes exactly
one character (no zero padding), so each channel adds 1 or 2 to the
length; when all three channels are at least 16 the string coincides with
the zero-padded two-digit form of the original claim. -/
theorem hex_format_amended (r g b : ℕ) (hr : r ≤ 255) (hg : g ≤ 255) (hb : b ≤ 255) :
    generateHex (r : ℚ) (g : ℚ) (b : ℚ) =
      String.mk (specMinimalHexDigits r ++ specMinimalHexDigits g ++ specMinimalHexDigits b) ∧
    (generateHex (r : ℚ) (g : ℚ) (b : ℚ)).length =
      (if r < 16 then 1 else 2) + (if g < 16 then 1 else 2) + (if b < 16 then 1 else 2) ∧
    (16 ≤ r → 16 ≤ g → 16 ≤ b →
      generateHex (r : ℚ) (g : ℚ) (b : ℚ) = specPaddedHex r g b) := by
  have key : ∀ n : ℕ, n ≤ 255 → natHexDigits n = specMinimalHexDigits n := by
    intro n hn
    unfold specMinimalHexDigits
    by_cases h16 : n < 16
    · rw [if_pos h16, natHexDigits_small h16]
    · rw [if_neg h16, natHexDigits_two (by omega) hn]
  have hlen : ∀ n : ℕ, (specMinimalHexDigits n).length = if n < 16 then 1 else 2 := by
    intro n
    unfold specMinimalHexDigits
    split_ifs <;> rfl
  have hgen : generateHex (r : ℚ) (g : ℚ) (b : ℚ) =
      String.mk (specMinimalHexDigits r ++ specMinimalHexDigits g ++ specMinimalHexDigits b) := by
    unfold generateHex
    rw [trunc64_natCast, trunc64_natCast, trunc64_natCast, formatIntHex_natCast,
      formatIntHex_natCast, formatIntHex_natCast, stringMk_append, stringMk_append,
      key r hr, key g hg, key b hb]
  refine ⟨hgen, ?_, ?_⟩
  · rw [hgen]
    show (specMinimalHexDigits r ++ specMinimalHexDigits g ++ specMinimalHexDigits b).length =
      (if r < 16 then 1 else 2) + (if g < 16 then 1 else 2) + (if b < 16 then 1 else 2)
    rw [List.length_append, List.length_append, hlen r, hlen g, hlen b]
  · intro h16r h16g h16b
    rw [hgen]
    unfold specMinimalHexDigits
    rw [if_neg (by omega), if_neg (by omega), if_neg (by omega)]
    rfl

/-- C4 witness: on channels 98, 5, 119 (green below 16) the hex is the
minimal-length concatenation, and on the scenario channels 24, 98, 119
(all at least 16) it really is the padded concatenation. -/
theorem hex_format_amended_witness :
    generateHex (98 : ℚ) (5 : ℚ) (119 : ℚ) =
      String.mk (specMinimalHexDigits 98 ++ specMinimalHexDigits 5 ++ specMinimalHexDigits 119) ∧
    generateHex (24 : ℚ) (98 : ℚ) (119 : ℚ) = specPaddedHex 24 98 119 :=
  ⟨(hex_format_amended 98 5 119 (by norm_num) (by norm_num) (by norm_num)).1,
    (hex_format_amended 24 98 119 (by norm_num) (by norm_num) (by norm_num)).2.2
      (by norm_num) (by norm_num) (by norm_num)⟩

/-- C5 counterexample: the gray with channels 24 does not map to
luminosity 24/255 (it is rounded to 0.09) and does not convert back to the
same gray: the returned red channel is 22.95. -/
theorem achromatic_counterexample :
    (ConvertRGBToHSL ⟨24, 24, 24, "181818"⟩).luminosity ≠ 24 / 255 ∧
    (ConvertHSLToRGB (ConvertRGBToHSL ⟨24, 24, 24, "181818"⟩)).red ≠ 24 := by decide

/-- C5 amended: a gray with channels v maps to hue 0, saturation 0 and
luminosity roundTo 2 (v / 255), and converts back to the gray whose three
equal channels are that rounded luminosity times 255, within 51/40 = 1.275
of v but not equal to v in general. -/
theorem achromatic_amended (v : ℚ) (hx : String) :
    ConvertRGBToHSL ⟨v, v, v, hx⟩ = ⟨0, 0, roundTo 2 (v / 255)⟩ ∧
    ConvertHSLToRGB ⟨0, 0, roundTo 2 (v / 255)⟩ =
      ⟨roundTo 2 (v / 255) * 255, roundTo 2 (v / 255) * 255, roundTo 2 (v / 255) * 255,
        generateHex (roundTo 2 (v / 255) * 255) (roundTo 2 (v / 255) * 255)
          (roundTo 2 (v / 255) * 255)⟩ ∧
    |roundTo 2 (v / 255) * 255 - v| ≤ 51 / 40 := by
  refine ⟨?_, ?_, ?_⟩
  · have h1 : goMin v (goMin v v) = v := by simp [goMin]
    have h2 : goMax v (goMax v v) = v := by simp [goMax]
    simp only [ConvertRGBToHSL, h1, h2]
    rw [sub_self, if_neg (lt_irrefl 0)]
    rw [show (v / 255 + v / 255 : ℚ) / 2 = v / 255 by ring]
  · simp only [ConvertHSLToRGB]
    rw [if_neg (by rintro ⟨hcon, -⟩; exact lt_irrefl 0 hcon)]
  · have hle := roundTo_le 2 (v / 255)
    have hge := le_roundTo 2 (v / 255)
    have hpow : (1 : ℚ) / (2 * 10 ^ (2:ℕ)) = 1 / 200 := by norm_num
    rw [hpow] at hle hge
    rw [abs_le]
    constructor <;> nlinarith

/-- C6 counterexample: on red 255, green 0, blue 100 the returned hue is
negative (minus 24 degrees), so it does not lie in the interval from 0 to
360: the code neither takes an absolute value nor adds 360. -/
theorem hue_negative_counterexample :
    (ConvertRGBToHSL ⟨255, 0, 100, "ff0064"⟩).hue < 0 := by decide

/-- C6 amended: the hue returned by ConvertRGBToHSL is the raw branch
value times 60 rounded to a whole degree with no absolute value and no
normalization; for every input it lies between minus 60 and 300. -/
theorem hue_range_amended (c : Color) :
    -60 ≤ (ConvertRGBToHSL c).hue ∧ (ConvertRGBToHSL c).hue ≤ 300 := by
  unfold ConvertRGBToHSL
  simp only
  split_ifs with h
  · rw [calculateHSL_hue_eq]
    obtain ⟨h1, h2⟩ := lastMaxHueRaw_bounds c.red c.green c.blue
    have hlo : roundTo 0 (-60 : ℚ) ≤ roundTo 0 (lastMaxHueRaw c.red c.green c.blue * 60) :=
      roundTo_mono 0 (by nlinarith)
    have hhi : roundTo 0 (lastMaxHueRaw c.red c.green c.blue * 60) ≤ roundTo 0 (300 : ℚ) :=
      roundTo_mono 0 (by nlinarith)
    have he1 : roundTo 0 (-60 : ℚ) = -60 := by decide
    have he2 : roundTo 0 (300 : ℚ) = 300 := by decide
    rw [he1] at hlo
    rw [he2] at hhi
    exact ⟨hlo, hhi⟩
  · constructor <;> norm_num

/-- C7 counterexample: on red 200, green 0, blue 200 (a red and blue tie
for the maximum) the code returns hue 300, but the branch of the first
maximal channel in red, green, blue order would give minus 60: the first
channel does not determine the branch. -/
theorem tie_break_counterexample :
    (ConvertRGBToHSL ⟨200, 0, 200, "c800c8"⟩).hue = 300 ∧
    roundTo 0 (firstMaxHueRaw 200 0 200 * 60) = -60 := by decide

/-- C7 amended: for every chromatic color the hue is computed from the
branch of the last channel in red, green, blue order that equals the
rounded maximum (the three sequential if statements overwrite earlier
matches). -/
theorem tie_break_amended (c : Color)
    (h : 0 < goMax c.red (goMax c.green c.blue) / 255 - goMin c.red (goMin c.green c.blue) / 255) :
    (ConvertRGBToHSL c).hue = roundTo 0 (lastMaxHueRaw c.red c.green c.blue * 60) := by
  unfold ConvertRGBToHSL
  simp only
  rw [if_pos h]
  exact calculateHSL_hue_eq _ _ _ _ _

/-- C7 witness: the scenario color is chromatic and its hue 193 agrees
with the last matching branch. -/
theorem tie_break_amended_witness :
    (ConvertRGBToHSL ⟨24, 98, 119, "186277"⟩).hue =
      roundTo 0 (lastMaxHueRaw 24 98 119 * 60) :=
  tie_break_amended ⟨24, 98, 119, "186277"⟩ (by decide)

/-- C8 counterexample: with saturation 0 and luminosity 0.28 the returned
red channel is 71.4, not the claimed nearest integer 71: the achromatic
branch does not round. -/
theorem hsl_to_rgb_cases_counterexample :
    (ConvertHSLToRGB ⟨0, 0, 28/100⟩).red = 357 / 5 ∧
    roundTo 0 ((28 / 100 : ℚ) * 255) = 71 ∧ (357 / 5 : ℚ) ≠ 71 := by decide

/-- C8 amended: with saturation 0 each channel is luminosity times 255
exactly, with no rounding, and the hex comes from truncating those
channels; the chromatic temp1 and temp2 path runs only when hue and
saturation are both strictly positive, with temp1 as the claim states. -/
theorem hsl_to_rgb_cases_amended (h s l : ℚ) :
    (s = 0 → ConvertHSLToRGB ⟨h, s, l⟩ =
      ⟨l * 255, l * 255, l * 255, generateHex (l * 255) (l * 255) (l * 255)⟩) ∧
    (0 < h → 0 < s → ConvertHSLToRGB ⟨h, s, l⟩ =
      calculateRGB (roundTo 2 (h / 360 + 1/3)) (roundTo 3 (h / 360)) (roundTo 2 (h / 360 - 1/3))
        (if l < 1/2 then l * (1 + s) else (l + s) - l * s)
        (2 * l - (if l < 1/2 then l * (1 + s) else (l + s) - l * s))) := by
  constructor
  · intro hs0
    subst hs0
    simp only [ConvertHSLToRGB]
    rw [if_neg (by rintro ⟨-, hcon⟩; exact lt_irrefl 0 hcon)]
  · intro hh hs
    simp only [ConvertHSLToRGB]
    rw [if_pos ⟨hh, hs⟩]

/-- C8 witness: the achromatic case at luminosity 0.28 and the chromatic
case at hue 253, saturation 0.66, luminosity 0.28. -/
theorem hsl_to_rgb_cases_amended_witness :
    ConvertHSLToRGB ⟨193, 0, 28/100⟩ =
      ⟨(28/100 : ℚ) * 255, (28/100 : ℚ) * 255, (28/100 : ℚ) * 255,
        generateHex ((28/100 : ℚ) * 255) ((28/100 : ℚ) * 255) ((28/100 : ℚ) * 255)⟩ ∧
    ConvertHSLToRGB ⟨253, 66/100, 28/100⟩ =
      calculateRGB (roundTo 2 ((253 : ℚ) / 360 + 1/3)) (roundTo 3 ((253 : ℚ) / 360))
        (roundTo 2 ((253 : ℚ) / 360 - 1/3))
        (if (28/100 : ℚ) < 1/2 then 28/100 * (1 + 66/100) else (28/100 + 66/100) - 28/100 * (66/100))
        (2 * (28/100) -
          (if (28/100 : ℚ) < 1/2 then 28/100 * (1 + 66/100) else (28/100 + 66/100) - 28/100 * (66/100))) :=
  ⟨(hsl_to_rgb_cases_amended 193 0 (28/100)).1 rfl,
    (hsl_to_rgb_cases_amended 253 (66/100) (28/100)).2 (by norm_num) (by norm_num)⟩

/-- C9 counterexample: on red 0, green 0, blue 1 the code returns
saturation 0.98, while rounding the exact saturation once would give 1:
the code divides the unrounded delta by the 3 decimal rounded channel sum
and then rounds at 3 and again at 2 decimals. -/
theorem rounding_policy_counterexample :
    (ConvertRGBToHSL ⟨0, 0, 1, "001"⟩).saturation = 49 / 50 ∧
    (hslRoundedOnce ⟨0, 0, 1, "001"⟩).saturation = 1 := by decide

/-- C9 amended: luminosity really is the exact value rounded once to 2
decimals; but for chromatic inputs the hue is rounded from the branch
value of 3 decimal rounded channels (last match winning), and the
saturation divides the unrounded delta by rounded intermediates and is
rounded at 3 decimals and then again at 2. -/
theorem rounding_policy_amended (c : Color) :
    (ConvertRGBToHSL c).luminosity =
      roundTo 2 ((goMax c.red (goMax c.green c.blue) / 255 +
        goMin c.red (goMin c.green c.blue) / 255) / 2) ∧
    (0 < goMax c.red (goMax c.green c.blue) / 255 - goMin c.red (goMin c.green c.blue) / 255 →
      (ConvertRGBToHSL c).hue = roundTo 0 (lastMaxHueRaw c.red c.green c.blue * 60) ∧
      (ConvertRGBToHSL c).saturation =
        roundTo 2 (roundTo 3
          (if roundTo 2 ((goMax c.red (goMax c.green c.blue) / 255 +
              goMin c.red (goMin c.green c.blue) / 255) / 2) < 1/2
           then (goMax c.red (goMax c.green c.blue) / 255 -
              goMin c.red (goMin c.green c.blue) / 255) /
             (roundTo 3 (goMax c.red (goMax c.green c.blue) / 255) +
              roundTo 3 (goMin c.red (goMin c.green c.blue) / 255))
           else (goMax c.red (goMax c.green c.blue) / 255 -
              goMin c.red (goMin c.green c.blue) / 255) /
             (2 - roundTo 3 (goMax c.red (goMax c.green c.blue) / 255) -
              roundTo 3 (goMin c.red (goMin c.green c.blue) / 255))))) := by
  constructor
  · by_cases hd : 0 < goMax c.red (goMax c.green c.blue) / 255 -
        goMin c.red (goMin c.green c.blue) / 255
    · rw [convertRGBToHSL_chromatic c hd, calculateHSL_luminosity, roundTo_roundTo]
    · rw [convertRGBToHSL_achromatic c hd]
  · intro hd
    constructor
    · rw [convertRGBToHSL_chromatic c hd]
      exact calculateHSL_hue_eq _ _ _ _ _
    · rw [convertRGBToHSL_chromatic c hd, calculateHSL_saturation]
      split_ifs with hc <;> rfl

/-- C9 witness: on the scenario color the luminosity equals the once
rounded exact value and the hue follows the last matching branch. -/
theorem rounding_policy_amended_witness :
    (ConvertRGBToHSL ⟨24, 98, 119, "186277"⟩).luminosity =
      roundTo 2 ((goMax (24 : ℚ) (goMax 98 119) / 255 + goMin (24 : ℚ) (goMin 98 119) / 255) / 2) ∧
    (ConvertRGBToHSL ⟨24, 98, 119, "186277"⟩).hue =
      roundTo 0 (lastMaxHueRaw 24 98 119 * 60) :=
  ⟨(rounding_policy_amended ⟨24, 98, 119, "186277"⟩).1,
    ((rounding_policy_amended ⟨24, 98, 119, "186277"⟩).2 (by decide)).1⟩

/-- C10: when the hue is 0 the conversion returns the achromatic gray with
each channel luminosity times 255, even when the saturation is strictly
positive, because the chromatic branch requires hue strictly positive as
well. -/
theorem hue_zero_achromatic (s l : ℚ) (hs : 0 < s) :
    ConvertHSLToRGB ⟨0, s, l⟩ =
      ⟨l * 255, l * 255, l * 255, generateHex (l * 255) (l * 255) (l * 255)⟩ := by
  simp only [ConvertHSLToRGB]
  rw [if_neg (by rintro ⟨hcon, -⟩; exact lt_irrefl 0 hcon)]

/-- C10 witness: at saturation 0.66 and luminosity 0.28 the result is the
gray with channels 71.4. -/
theorem hue_zero_achromatic_witness :
    ConvertHSLToRGB ⟨0, 66/100, 28/100⟩ =
      ⟨(28/100 : ℚ) * 255, (28/100 : ℚ) * 255, (28/100 : ℚ) * 255,
        generateHex ((28/100 : ℚ) * 255) ((28/100 : ℚ) * 255) ((28/100 : ℚ) * 255)⟩ :=
  hue_zero_achromatic (66/100) (28/100) (by norm_num)

end PaletteCalculator
